import Mathlib

/-!
Verification development for the OblivAI browser chat application.

Shallow embedding of the security/privacy-enforcement layer, the chat
state container, the input sanitizer and the inference-client adapter,
translated from the TypeScript sources:
  src/lib/network-audit.ts, src/lib/security-init.ts, src/lib/security.ts,
  src/lib/webllm-service.ts, the zustand chat store and the ChatInterface
  component.

Browser primitives that live outside the repository (the URL constructor,
DOMPurify, the JS regex engine, the storage backends, the WebLLM engine)
are modelled as explicit inputs (oracle parameters or environment records),
so every theorem quantifies over their possible behaviours.
-/

set_option maxHeartbeats 1000000

namespace OblivAI

/-! ## String helpers

JS `String.prototype.includes` is substring containment; Lean has no direct
counterpart in this toolchain, so we implement it on character lists. -/

/-- Substring test on character lists: does `pat` occur contiguously in `l`?
Mirrors JS `l.includes(pat)`. -/
def listIncludes (pat : List Char) : List Char → Bool
  | [] => pat.isEmpty
  | c :: rest => pat.isPrefixOf (c :: rest) || listIncludes pat rest

/-- JS `s.includes(pat)`: substring containment. -/
def strIncludes (s pat : String) : Bool :=
  listIncludes pat.toList s.toList

/-- JS `s.startsWith(pat)` (character-list implementation, so that it
evaluates inside the kernel). -/
def strStartsWith (s pat : String) : Bool :=
  pat.toList.isPrefixOf s.toList

/-- JS `s.endsWith(pat)` (character-list implementation). -/
def strEndsWith (s pat : String) : Bool :=
  pat.toList.reverse.isPrefixOf s.toList.reverse

/-! ## network-audit.ts -/

/-- One audit entry; field for field the `NetworkRequest` interface of
network-audit.ts (timestamps as naturals). -/
structure NetworkRequest where
  url : String
  timestamp : Nat
  blocked : Bool
  reason : Option String
  method : String
deriving Repr, DecidableEq

/-- `MAX_ENTRIES` of NetworkAuditLog. -/
def MAX_ENTRIES : Nat := 100

/-- The arguments of one `logRequest(url, allowed, reason, method)` call,
together with the `Date.now()` value observed during the call. -/
structure LogCall where
  url : String
  allowed : Bool
  reason : Option String
  method : String
  ts : Nat
deriving Repr, DecidableEq

/-- The entry `logRequest` pushes: note `blocked := !allowed`. -/
def mkEntry (c : LogCall) : NetworkRequest :=
  { url := c.url, timestamp := c.ts, blocked := !c.allowed,
    reason := c.reason, method := c.method }

/-- `NetworkAuditLog.logRequest`: push the entry, then drop the oldest
entry when the buffer exceeds `MAX_ENTRIES` (`this.requests.shift()`). -/
def logRequest (requests : List NetworkRequest) (c : LogCall) : List NetworkRequest :=
  if (requests ++ [mkEntry c]).length > MAX_ENTRIES then (requests ++ [mkEntry c]).tail
  else requests ++ [mkEntry c]

/-! ## security-init.ts: the wrapped fetch (deployNetworkSecurity) -/

/-- The `allowedDomains` array of `deployNetworkSecurity`. -/
def allowedDomains : List String :=
  ["huggingface.co", "cdn-lfs.huggingface.co", "raw.githubusercontent.com", "xethub.hf.co"]

/-- `allowedDomains.some(domain => urlObj.hostname.includes(domain))`. -/
def isAllowedDomain (hostname : String) : Bool :=
  allowedDomains.any (fun domain => strIncludes hostname domain)

/-- The `isLocalRequest` disjunction of `deployNetworkSecurity`:
page-host containment, loopback, onion, and private network ranges. -/
def isLocalRequest (pageHost hostname : String) : Bool :=
  strIncludes hostname pageHost ||
  hostname == "localhost" ||
  hostname == "127.0.0.1" ||
  strEndsWith hostname ".onion" ||
  strStartsWith hostname "192.168." ||
  strStartsWith hostname "10." ||
  strStartsWith hostname "172.16." ||
  strStartsWith hostname "172.17." ||
  strStartsWith hostname "172.18." ||
  strStartsWith hostname "172.19." ||
  strStartsWith hostname "172.20." ||
  strStartsWith hostname "172.21." ||
  strStartsWith hostname "172.22." ||
  strStartsWith hostname "172.23." ||
  strStartsWith hostname "172.24." ||
  strStartsWith hostname "172.25." ||
  strStartsWith hostname "172.26." ||
  strStartsWith hostname "172.27." ||
  strStartsWith hostname "172.28." ||
  strStartsWith hostname "172.29." ||
  strStartsWith hostname "172.30." ||
  strStartsWith hostname "172.31."

/-- The wrapped `window.fetch` of `deployNetworkSecurity`, from the top of
the function to the final `return originalFetch(input, init)`.

`parseResult` is the outcome of the browser primitive
`new URL(url, window.location.origin)`: `some hostname` on success, `none`
when the constructor throws. `ts` stands for `Date.now()`.

Returns the audit log after the call together with `none` when the call
proceeds to `originalFetch`, or `some message` when the wrapper throws.

Control flow follows the source exactly: the deliberate
`throw new Error(..)` after logging a blocked request is raised inside the
same `try` block, so it transfers control to the `catch` arm that was
written to handle relative URLs. -/
def fetchGate (pageHost url method : String) (parseResult : Option String)
    (ts : Nat) (log : List NetworkRequest) : List NetworkRequest × Option String :=
  -- try-block outcome: updated log, and whether control escaped to catch
  let tryOutcome : List NetworkRequest × Bool :=
    match parseResult with
    | none => (log, true)
    | some host =>
      if !(isAllowedDomain host) && !(isLocalRequest pageHost host) then
        (logRequest log ⟨url, false, some "Domain not in whitelist", method, ts⟩, true)
      else
        (logRequest log
          ⟨url, true,
           some (if isLocalRequest pageHost host then "Local request" else "Whitelisted domain"),
           method, ts⟩, false)
  match tryOutcome with
  | (log1, false) => (log1, none)
  | (log1, true) =>
    if strStartsWith url "/" || strStartsWith url "./" then
      (logRequest log1 ⟨url, true, some "Local resource", method, ts⟩, none)
    else
      (logRequest log1 ⟨url, false, some "Invalid or blocked URL", method, ts⟩,
       some "Network request blocked")

/-! ## Durable browser storage and its environment

Browser storage backends are external to the repository; we model their
observable content as a record and their possible failures (private
browsing, quota, missing API) as an explicit environment. -/

/-- Observable durable state: key-value stores, IndexedDB database names,
Cache API cache names. -/
structure StorageState where
  localEntries : List (String × String)
  sessionEntries : List (String × String)
  idb : List String
  cacheNames : List String
deriving Repr, DecidableEq

/-- Which browser storage primitives succeed in the current context.
A `false` flag makes the corresponding call throw (or reject). -/
structure BrowserEnv where
  lsAvailable : Bool
  ssAvailable : Bool
  idbHasDatabasesApi : Bool
  idbListOk : Bool
  cachesAvailable : Bool
  cachesKeysOk : Bool
deriving Repr, DecidableEq

/-- `localStorage.clear()`: empties the store or throws. -/
def lsClear (env : BrowserEnv) (st : StorageState) : Except String StorageState :=
  if env.lsAvailable then .ok { st with localEntries := [] }
  else .error "SecurityError: localStorage unavailable"

/-- `sessionStorage.clear()`: empties the store or throws. -/
def ssClear (env : BrowserEnv) (st : StorageState) : Except String StorageState :=
  if env.ssAvailable then .ok { st with sessionEntries := [] }
  else .error "SecurityError: sessionStorage unavailable"

/-- The JS sequence `try { localStorage.clear(); sessionStorage.clear(); }
catch {..}`: if the first call succeeds and the second throws, the first
effect is kept. Never throws. -/
def clearKvStoresCaught (env : BrowserEnv) (st : StorageState) : StorageState :=
  match lsClear env st with
  | .error _ => st
  | .ok stA =>
    match ssClear env stA with
    | .error _ => stA
    | .ok stB => stB

/-! ## security-init.ts: storage scrub -/

/-- The `allowedDatabases` whitelist of
`SecurityManager.clearUserDataFromIndexedDB`. -/
def allowedDatabases : List String :=
  ["webllm", "webllm-cache", "mlc-wasm-cache", "mlc-chat-config", "tvmjs"]

/-- `SecurityManager.clearUserDataFromIndexedDB`: inside a `try`, when the
`databases` API exists, list the databases and delete every one whose name
contains no whitelisted substring; any failure is swallowed by the `catch`
(state unchanged). The returned value is always `.ok`. -/
def clearUserDataFromIndexedDB (env : BrowserEnv) (st : StorageState) :
    Except String StorageState :=
  let body : Except String StorageState :=
    if env.idbHasDatabasesApi then
      if env.idbListOk then
        .ok { st with
              idb := st.idb.filter (fun dbName =>
                allowedDatabases.any (fun allowed => strIncludes dbName allowed)) }
      else .error "indexedDB.databases rejected"
    else .ok st
  match body with
  | .ok st1 => .ok st1
  | .error _ => .ok st

/-- `caches.keys().then(names => ..delete non-webllm/mlc..).catch(ignore)`
from `secureMemoryWipe`: keeps only cache names containing webllm or mlc;
failures are ignored. -/
def wipeCachesCaught (env : BrowserEnv) (st : StorageState) : StorageState :=
  if env.cachesAvailable then
    if env.cachesKeysOk then
      { st with
        cacheNames := st.cacheNames.filter (fun name =>
          strIncludes name "webllm" || strIncludes name "mlc") }
    else st
  else st

/-- `SecurityManager.secureMemoryWipe`: an outer `try` wrapping
(1) the inner-caught key-value clears, (2) the (not awaited, internally
caught) IndexedDB scrub, (3) the `.catch`-guarded cache scrub, and (4) the
random-buffer overwrite (no storage effect). The outer `catch` is silent,
so the function always returns `.ok`. -/
def secureMemoryWipe (env : BrowserEnv) (st : StorageState) :
    Except String StorageState :=
  let st1 := clearKvStoresCaught env st
  let st2 :=
    match clearUserDataFromIndexedDB env st1 with
    | .ok s => s
    | .error _ => st1
  let st3 := wipeCachesCaught env st2
  .ok st3

/-! ## The chat state container (zustand store, chat-store.ts) -/

/-- A chat message (webllm-service.ts `ChatMessage`); roles are the strings
user, assistant, system; timestamps as naturals. -/
structure ChatMessage where
  role : String
  content : String
  timestamp : Nat
deriving Repr, DecidableEq

/-- A model descriptor (model-config.ts `ModelConfig`), restricted to the
fields the store and services read. -/
structure ModelConfig where
  id : String
  name : String
  size : String
  category : String
deriving Repr, DecidableEq

/-- The zustand store state (`ChatState` in chat-store.ts), data fields
only. -/
structure ChatState where
  messages : List ChatMessage
  selectedModel : Option ModelConfig
  isGenerating : Bool
  modelLoadingProgress : Nat
  modelLoadingStatus : String
  isDarkMode : Bool
  autoDeleteChats : Bool
  systemInstruction : String
  storageEnabled : Bool
  contextTokenCount : Nat
  showContextWarning : Bool
deriving Repr, DecidableEq

/-- A store snapshot together with the durable storage it could write to. -/
abbrev StorePair := ChatState × StorageState

/-- `useChatStore.addMessage`: append the message (restamped with
`new Date()`, here `now`), recompute the estimated token count
(`Math.ceil(totalChars / 4)`), and set the warning flag when the estimate
exceeds 2048. Touches no durable storage. -/
def addMessage (now : Nat) (p : StorePair) (m : ChatMessage) : StorePair :=
  let s := p.1
  let newMessages := s.messages ++ [{ m with timestamp := now }]
  let totalChars := newMessages.foldl (fun sum msg => sum + msg.content.length) 0
  let estimatedTokens := (totalChars + 3) / 4
  ({ s with
      messages := newMessages,
      contextTokenCount := estimatedTokens,
      showContextWarning := decide (estimatedTokens > 2048) }, p.2)

/-- `useChatStore.clearMessages`. Touches no durable storage. -/
def clearMessages (p : StorePair) : StorePair :=
  ({ p.1 with messages := [], contextTokenCount := 0, showContextWarning := false }, p.2)

/-- The `preserveDatabases` list of `clearAllHistory`. -/
def preserveDatabases : List String :=
  ["webllm", "mlc-wasm-cache", "mlc-chat-config", "tvmjs"]

/-- `useChatStore.clearAllHistory`: overwrite the dropped message contents
in place (in-memory only, no durable effect), reset messages, token count,
warning flag and system instruction, then best-effort clear localStorage,
sessionStorage, non-model caches and non-whitelisted IndexedDB databases,
every step behind its own silent failure handler. -/
def clearAllHistory (env : BrowserEnv) (p : StorePair) : StorePair :=
  let s1 := { p.1 with
              messages := [], contextTokenCount := 0,
              showContextWarning := false, systemInstruction := "" }
  let st1 := clearKvStoresCaught env p.2
  let st2 :=
    if env.cachesAvailable then
      if env.cachesKeysOk then
        { st1 with
          cacheNames := st1.cacheNames.filter (fun name =>
            strIncludes name "mlc" || strIncludes name "webllm" ||
            strIncludes name "oblivai-static") }
      else st1
    else st1
  let st3 :=
    if env.idbHasDatabasesApi then
      if env.idbListOk then
        { st2 with
          idb := st2.idb.filter (fun dbName =>
            preserveDatabases.any (fun keep => strIncludes dbName keep)) }
      else st2
    else st2
  (s1, st3)

/-- `useChatStore.enableStorage`: documented no-op, sets
`storageEnabled := false`. -/
def enableStorage (p : StorePair) : StorePair :=
  ({ p.1 with storageEnabled := false }, p.2)

/-- `useChatStore.disableStorage`. -/
def disableStorage (p : StorePair) : StorePair :=
  ({ p.1 with storageEnabled := false }, p.2)

/-- The store operations quantified over in the persistence claim. -/
inductive StoreOp where
  | add (m : ChatMessage) (now : Nat)
  | clear
  | clearAll
deriving Repr, DecidableEq

/-- Dispatch one store operation. -/
def applyOp (env : BrowserEnv) (p : StorePair) : StoreOp → StorePair
  | .add m now => addMessage now p m
  | .clear => clearMessages p
  | .clearAll => clearAllHistory env p

/-- Run a sequence of store operations. -/
def runOps (env : BrowserEnv) (ops : List StoreOp) (p : StorePair) : StorePair :=
  ops.foldl (applyOp env) p

/-- All durable key-value content of a storage state. -/
def storagePairs (st : StorageState) : List (String × String) :=
  st.localEntries ++ st.sessionEntries

/-- All durable object names (IndexedDB databases and caches). -/
def storageNames (st : StorageState) : List String :=
  st.idb ++ st.cacheNames

/-! ## security.ts: sanitizeInput -/

/-- The character class of the control-character strip in `sanitizeInput`
(the JS regex class covering 00-1F and 7F-9F). -/
def isControlChar (c : Char) : Bool :=
  decide (c.toNat ≤ 0x1F) || (decide (0x7F ≤ c.toNat) && decide (c.toNat ≤ 0x9F))

/-- The JS regex class `\s` (ECMAScript WhiteSpace plus LineTerminator). -/
def isJsWhitespace (c : Char) : Bool :=
  c == ' ' || c == '\t' || c == '\n' || c.toNat == 0x0B || c.toNat == 0x0C ||
  c == '\r' || c.toNat == 0xA0 || c.toNat == 0x1680 ||
  (decide (0x2000 ≤ c.toNat) && decide (c.toNat ≤ 0x200A)) ||
  c.toNat == 0x2028 || c.toNat == 0x2029 || c.toNat == 0x202F ||
  c.toNat == 0x205F || c.toNat == 0x3000 || c.toNat == 0xFEFF

/-- The strip `sanitized.replace(controlClassRegex, "")`. -/
def removeControlChars (s : String) : String :=
  String.mk (s.toList.filter (fun c => !isControlChar c))

/-- The collapse `sanitized.replace(wsRunOfTenRegex, " ")`, walking the
input while accumulating the current (reversed) maximal whitespace run in
`run`: when the run ends (or the input does) it is emitted as a single
space when its length is at least 10, verbatim otherwise. -/
def collapseWs10Aux (run : List Char) : List Char → List Char
  | [] => if 10 ≤ run.length then [' '] else run.reverse
  | c :: rest =>
    if isJsWhitespace c then collapseWs10Aux (c :: run) rest
    else
      (if 10 ≤ run.length then [' '] else run.reverse) ++
        (c :: collapseWs10Aux [] rest)

/-- Every maximal whitespace run of length at least 10 becomes a single
space; shorter runs and other characters are kept. -/
def collapseWs10 (l : List Char) : List Char := collapseWs10Aux [] l

/-- JS `String.prototype.trim`: drop `\s` characters from both ends. -/
def jsTrim (l : List Char) : List Char :=
  ((l.dropWhile isJsWhitespace).reverse.dropWhile isJsWhitespace).reverse

/-- `sanitizeInput` from security.ts.

`purify` stands for lines 36-124 of the source: `DOMPurify.sanitize` (an
external library) composed with the global-regex pattern substitutions
(delegated to the JS regex engine); both only transform the string, so
they are modelled as an arbitrary total string transformer and every
theorem below quantifies over it. The repository-visible structure is kept
exactly: the length guard throws first, then the transformer runs, then
the control-character strip, the whitespace collapse and the final trim. -/
def sanitizeInput (purify : String → String) (input : String) :
    Except String String :=
  if input.length > 10000 then .error "Input too long"
  else
    let cleaned := purify input
    let s1 := removeControlChars cleaned
    let s2 := String.mk (jsTrim (collapseWs10 s1.toList))
    .ok s2

/-! ## ChatInterface.handleSendMessage (synchronous prefix)

The component handler up to the `generateResponse` await: guard on a
selected and loaded model, sanitize, truncate to 4000, append the user
message, set the generating flag, append the placeholder assistant
message. The returned flag records whether generation was started. -/

/-- `handleSendMessage` up to the generation await. Returns the unchanged
pair with flag `false` when the guard returns early, propagates the
`sanitizeInput` exception, and otherwise returns the mutated store with
flag `true`. -/
def handleSendMessage (purify : String → String) (modelLoaded : Bool) (now : Nat)
    (p : StorePair) (content : String) :
    Except String (StorePair × Bool) :=
  if p.1.selectedModel.isNone || !modelLoaded then .ok (p, false)
  else
    match sanitizeInput purify content with
    | .error e => .error e
    | .ok c0 =>
      let cleaned := c0.take 4000
      let userMessage : ChatMessage := ⟨"user", cleaned, now⟩
      let p1 := addMessage now p userMessage
      let p2 := ({ p1.1 with isGenerating := true }, p1.2)
      let assistantMessage : ChatMessage := ⟨"assistant", "", now⟩
      let p3 := addMessage now p2 assistantMessage
      .ok (p3, true)

/-! ## webllm-service.ts: model lifecycle (initializeModel / cleanup) -/

/-- The service fields touched by the lifecycle methods. Engines are
identified by a number standing for the `webllm.MLCEngine` object
identity. -/
structure ServiceState where
  engine : Option Nat
  currentModel : Option String
  isLoading : Bool
  loadingProgress : Nat
  loadingStatus : String
deriving Repr, DecidableEq

/-- Observable interactions with the wrapped engine library, in program
order. -/
inductive EngineEvent where
  | unload (id : Nat)
  | create (id : Nat)
  | reload (id : Nat) (model : String)
deriving Repr, DecidableEq

/-- `WebLLMService.cleanup`: unload the current engine if any (errors
swallowed), null the engine and model, reset progress and status. -/
def cleanup (st : ServiceState) : ServiceState × List EngineEvent :=
  match st.engine with
  | some e =>
    ({ st with engine := none, currentModel := none,
               loadingProgress := 0, loadingStatus := "" }, [.unload e])
  | none =>
    ({ st with currentModel := none, loadingProgress := 0, loadingStatus := "" }, [])

/-- `WebLLMService.initializeModel`, with the GPU-capability probing (pure
logging, no engine interaction) elided.

`newEngineId` identifies the `new webllm.MLCEngine(engineConfig)` object;
`reloadOk` is whether `engine.reload(modelConfig.id)` resolves. Returns
the outcome (`.error` when the method throws; the failure path rethrows a
user-friendly message, abstracted here) and the engine-event trace of the
call. -/
def initializeModel (st : ServiceState) (modelId : String) (newEngineId : Nat)
    (reloadOk : Bool) : Except String ServiceState × List EngineEvent :=
  if st.isLoading then (.error "Model is already loading", [])
  else
    let cleaned :=
      if st.engine.isSome && st.currentModel != some modelId then cleanup st
      else (st, [])
    let st1 := cleaned.1
    let evs1 := cleaned.2
    if st1.engine.isSome && st1.currentModel == some modelId then (.ok st1, evs1)
    else
      let st2 := { st1 with isLoading := true, loadingProgress := 0,
                            loadingStatus := "Initializing model..." }
      let st3 := { st2 with engine := some newEngineId }
      let evs3 := evs1 ++ [.create newEngineId, .reload newEngineId modelId]
      if reloadOk then
        (.ok { st3 with loadingProgress := 100,
                        loadingStatus := "Model loaded successfully",
                        currentModel := some modelId, isLoading := false }, evs3)
      else
        (.error "model load failed", evs3)

/-- Number of live engines after a trace of engine events, starting from
`start` live engines. -/
def enginesLive (start : Nat) : List EngineEvent → Nat
  | [] => start
  | .unload _ :: t => enginesLive (start - 1) t
  | .create _ :: t => enginesLive (start + 1) t
  | .reload _ _ :: t => enginesLive start t

/-! ## webllm-service.ts: streaming generation and cancellation

`generateResponse` iterates the streamed chunks; at the top of each
iteration it reads `this.abortController.signal.aborted` and breaks when
set. `cancelGeneration` calls `abort()` and then sets
`this.abortController = null`; consequently the next iteration of the
loop dereferences `null` and raises a TypeError, which the catch arm
rethrows as a generic generation failure (it is not an `AbortError`). -/

/-- `WebLLMService.cancelGeneration` acting on the `abortController`
field: `none` models the field being `null`; `some aborted` models a live
controller. -/
def cancelGeneration (ctrl : Option Bool) : Option Bool :=
  match ctrl with
  | some _ => none
  | none => none

/-- Outcome of the chunk loop inside `generateResponse`. -/
inductive GenResult where
  | completed (full : String)
  | nullSignalError
deriving Repr, DecidableEq

/-- The `for await` chunk loop of `generateResponse`.

`cancelBefore i` says whether the UI runs `cancelGeneration` while the
loop is suspended waiting for chunk `i` (cooperative single-threaded
interleaving). Each chunk is `some delta` or `none` (an empty delta).
Returns the loop outcome and the list of deltas passed to `onToken`, in
order. `nullSignalError` is the TypeError raised by reading
`this.abortController.signal` after `cancelGeneration` nulled the field;
the surrounding catch rethrows it as a generic failure. -/
def streamLoop (cancelBefore : Nat → Bool) :
    List (Option String) → Nat → Option Bool → String → GenResult × List String
  | [], _, _, acc => (.completed acc, [])
  | chunk :: rest, i, ctrl, acc =>
    let ctrl' := if cancelBefore i then cancelGeneration ctrl else ctrl
    match ctrl' with
    | none => (.nullSignalError, [])
    | some true => (.completed acc, [])
    | some false =>
      match chunk with
      | some delta =>
        let r := streamLoop cancelBefore rest (i + 1) (some false) (acc ++ delta)
        (r.1, delta :: r.2)
      | none => streamLoop cancelBefore rest (i + 1) (some false) acc

/-- Representative text of the browser TypeError raised by the null
dereference (exact wording is engine-dependent). -/
def genFailureText : String :=
  "Failed to generate response: TypeError reading signal of null"

/-- The ChatInterface side of one generation: fold the streamed deltas
through the `onToken` callback (which replaces the last message with the
accumulated assistant content), then apply the component error handler,
which appends a fresh assistant error message when `generateResponse`
rejects. `msgs` starts right after the placeholder assistant message was
appended. -/
def generateAndUpdate (cancelBefore : Nat → Bool) (chunks : List (Option String))
    (now : Nat) (msgs : List ChatMessage) : GenResult × List ChatMessage :=
  let r := streamLoop cancelBefore chunks 0 (some false) ""
  let folded := r.2.foldl
    (fun acc tok =>
      (acc.1 ++ tok, acc.2.dropLast ++ [⟨"assistant", acc.1 ++ tok, now⟩]))
    ("", msgs)
  match r.1 with
  | .completed _ => (r.1, folded.2)
  | .nullSignalError =>
    (r.1, folded.2 ++ [⟨"assistant", "Error: " ++ genFailureText, now⟩])

/-! ## Helper lemmas: audit log -/

/-- The entry a `logRequest` call pushes is always the newest (last) entry
of the resulting buffer. -/
theorem getLast?_logRequest (log : List NetworkRequest) (c : LogCall) :
    (logRequest log c).getLast? = some (mkEntry c) := by
  unfold logRequest
  split
  · next hgt =>
    cases log with
    | nil => simp [MAX_ENTRIES] at hgt
    | cons a t => simp [List.getLast?_concat]
  · simp [List.getLast?_concat]

/-- One `logRequest` call preserves the capacity bound. -/
theorem logRequest_length_le (log : List NetworkRequest) (c : LogCall)
    (h : log.length ≤ MAX_ENTRIES) : (logRequest log c).length ≤ MAX_ENTRIES := by
  unfold logRequest
  split
  · next hgt =>
    simp only [List.length_tail, List.length_append, List.length_singleton]
    omega
  · next hle =>
    simp only [gt_iff_lt, not_lt] at hle
    exact hle

/-- Any sequence of `logRequest` calls from a buffer within capacity stays
within capacity. -/
theorem foldl_logRequest_length_le (calls : List LogCall) (log : List NetworkRequest)
    (h : log.length ≤ MAX_ENTRIES) :
    (calls.foldl logRequest log).length ≤ MAX_ENTRIES := by
  induction calls generalizing log with
  | nil => simpa using h
  | cons c cs ih => exact ih _ (logRequest_length_le _ _ h)

/-! ## Claim theorems -/

/-- C3: for every sequence of logRequest calls on the network audit log,
the number of stored entries never exceeds the fixed capacity of 100, and
inserting an entry when the log is at capacity evicts exactly the oldest
entry, preserving FIFO order (the survivors are the tail of the old buffer
in order, with the new entry appended). -/
theorem audit_log_capacity_fifo (log : List NetworkRequest) (c : LogCall)
    (calls : List LogCall) (h : log.length ≤ MAX_ENTRIES) :
    (logRequest log c).length ≤ MAX_ENTRIES ∧
    (log.length = MAX_ENTRIES → logRequest log c = log.tail ++ [mkEntry c]) ∧
    (calls.foldl logRequest []).length ≤ MAX_ENTRIES := by
  refine ⟨logRequest_length_le log c h, ?_,
    foldl_logRequest_length_le calls [] (by simp)⟩
  intro hfull
  unfold logRequest
  have hgt : (log ++ [mkEntry c]).length > MAX_ENTRIES := by
    simp [List.length_append, hfull]
  rw [if_pos hgt]
  cases log with
  | nil => simp [MAX_ENTRIES] at hfull
  | cons a t => simp

/-- Concrete audit entry used by witnesses. -/
def auditEntry0 : NetworkRequest := mkEntry ⟨"u", true, none, "GET", 0⟩

/-- Concrete logRequest call used by witnesses. -/
def logCall0 : LogCall := ⟨"v", false, some "Domain not in whitelist", "GET", 1⟩

/-- Witness for C3 at a buffer of exactly 100 entries. -/
theorem audit_log_capacity_fifo_witness :
    (logRequest (List.replicate 100 auditEntry0) logCall0).length ≤ MAX_ENTRIES ∧
    ((List.replicate 100 auditEntry0).length = MAX_ENTRIES →
      logRequest (List.replicate 100 auditEntry0) logCall0 =
        (List.replicate 100 auditEntry0).tail ++ [mkEntry logCall0]) ∧
    (([] : List LogCall).foldl logRequest []).length ≤ MAX_ENTRIES :=
  audit_log_capacity_fifo (List.replicate 100 auditEntry0) logCall0 []
    (by simp [MAX_ENTRIES])

/-- C1: for every request URL passed to the wrapped fetch primitive whose
parsed host matches the fixed allow-list (model-hosting CDN domains, the
page own origin, loopback, private ranges, onion addresses) the call
proceeds to the original fetch and the newest audit entry records it as
allowed; for every other URL the wrapper throws and the newest audit entry
records it as blocked. The hypothesis `hrel` states the browser URL
resolution fact that a relative URL (leading slash or dot-slash) resolves
against the page origin, hence parses to a local host. -/
theorem network_gate_decision (pageHost url method host : String) (ts : Nat)
    (log : List NetworkRequest)
    (hrel : (strStartsWith url "/" || strStartsWith url "./") = true →
      isLocalRequest pageHost host = true) :
    ((isAllowedDomain host || isLocalRequest pageHost host) = true →
      (fetchGate pageHost url method (some host) ts log).2 = none ∧
      (fetchGate pageHost url method (some host) ts log).1.getLast? =
        some (mkEntry ⟨url, true,
          some (if isLocalRequest pageHost host then "Local request"
                else "Whitelisted domain"), method, ts⟩)) ∧
    ((isAllowedDomain host || isLocalRequest pageHost host) = false →
      (fetchGate pageHost url method (some host) ts log).2 =
        some "Network request blocked" ∧
      ∃ e, (fetchGate pageHost url method (some host) ts log).1.getLast? = some e ∧
        e.blocked = true ∧ e.url = url) := by
  constructor
  · intro hA
    have hcond : (!(isAllowedDomain host) && !(isLocalRequest pageHost host)) = false := by
      cases h1 : isAllowedDomain host <;> cases h2 : isLocalRequest pageHost host <;>
        simp_all
    constructor
    · simp [fetchGate, hcond]
    · simp [fetchGate, hcond, getLast?_logRequest]
  · intro hB
    have ha : isAllowedDomain host = false := by
      cases h1 : isAllowedDomain host <;> simp_all
    have hl : isLocalRequest pageHost host = false := by
      cases h2 : isLocalRequest pageHost host <;> simp_all
    have hcond : (!(isAllowedDomain host) && !(isLocalRequest pageHost host)) = true := by
      simp [ha, hl]
    have hstart : (strStartsWith url "/" || strStartsWith url "./") = false := by
      cases hs : (strStartsWith url "/" || strStartsWith url "./")
      · rfl
      · exact absurd (hrel hs) (by simp [hl])
    refine ⟨?_, ?_⟩
    · simp [fetchGate, hcond, hstart]
    · refine ⟨mkEntry ⟨url, false, some "Invalid or blocked URL", method, ts⟩, ?_, rfl, rfl⟩
      simp [fetchGate, hcond, hstart, getLast?_logRequest]

/-- Witness for C1: an allowed CDN host and a blocked host, both on a
clearnet page host, starting from an empty audit log. -/
theorem network_gate_decision_witness :
    ((fetchGate "oblivai.app" "https://huggingface.co/m" "GET"
        (some "huggingface.co") 0 []).2 = none ∧
      (fetchGate "oblivai.app" "https://huggingface.co/m" "GET"
        (some "huggingface.co") 0 []).1.getLast? =
        some (mkEntry ⟨"https://huggingface.co/m", true,
          some (if isLocalRequest "oblivai.app" "huggingface.co" then "Local request"
                else "Whitelisted domain"), "GET", 0⟩)) ∧
    ((fetchGate "oblivai.app" "https://evil.example.com/x" "GET"
        (some "evil.example.com") 0 []).2 = some "Network request blocked" ∧
      ∃ e, (fetchGate "oblivai.app" "https://evil.example.com/x" "GET"
        (some "evil.example.com") 0 []).1.getLast? = some e ∧
        e.blocked = true ∧ e.url = "https://evil.example.com/x") := by
  constructor
  · exact (network_gate_decision "oblivai.app" "https://huggingface.co/m" "GET"
      "huggingface.co" 0 [] (by decide)).1 (by decide)
  · exact (network_gate_decision "oblivai.app" "https://evil.example.com/x" "GET"
      "evil.example.com" 0 [] (by decide)).2 (by decide)

/-- C4: evaluating the wrapped fetch at the request
https-evil.example.com-x on a clearnet page host shows the call throws,
but the audit receives TWO blocked entries, the first with reason
Domain not in whitelist and the second with reason Invalid or blocked URL:
the deliberate throw after the first entry lands in the catch arm written
for relative URLs, which logs again and rethrows a generic error. No
recorded entry carries the reason the claim states (all-lowercase
domain not in whitelist, exactly once). -/
theorem evil_request_double_blocked_log :
    fetchGate "oblivai.app" "https://evil.example.com/x" "GET"
        (some "evil.example.com") 0 [] =
      ([mkEntry ⟨"https://evil.example.com/x", false,
          some "Domain not in whitelist", "GET", 0⟩,
        mkEntry ⟨"https://evil.example.com/x", false,
          some "Invalid or blocked URL", "GET", 0⟩],
       some "Network request blocked") ∧
    ((fetchGate "oblivai.app" "https://evil.example.com/x" "GET"
        (some "evil.example.com") 0 []).1.filter
          (fun e => e.blocked)).length = 2 ∧
    ¬ (∃ e ∈ (fetchGate "oblivai.app" "https://evil.example.com/x" "GET"
        (some "evil.example.com") 0 []).1,
        e.reason = some "domain not in whitelist") := by
  refine ⟨by decide, by decide, by decide⟩

/-! ## Helper lemmas: store operations and durable storage -/

/-- The storage components after `clearAllHistory` are contained in the
old ones: the operation only clears and filters, never inserts. -/
theorem clearAllHistory_storage_sub (env : BrowserEnv) (p : StorePair) :
    (clearAllHistory env p).2.localEntries ⊆ p.2.localEntries ∧
    (clearAllHistory env p).2.sessionEntries ⊆ p.2.sessionEntries ∧
    (clearAllHistory env p).2.idb ⊆ p.2.idb ∧
    (clearAllHistory env p).2.cacheNames ⊆ p.2.cacheNames := by
  unfold clearAllHistory clearKvStoresCaught lsClear ssClear
  cases hls : env.lsAvailable <;> cases hss : env.ssAvailable <;>
    cases hca : env.cachesAvailable <;> cases hck : env.cachesKeysOk <;>
    cases hdb : env.idbHasDatabasesApi <;> cases hok : env.idbListOk <;>
    simp_all [List.filter_subset', List.nil_subset, List.Subset.refl]

/-- Every quantified store operation only shrinks the durable storage. -/
theorem applyOp_storage_sub (env : BrowserEnv) (p : StorePair) (op : StoreOp) :
    (applyOp env p op).2.localEntries ⊆ p.2.localEntries ∧
    (applyOp env p op).2.sessionEntries ⊆ p.2.sessionEntries ∧
    (applyOp env p op).2.idb ⊆ p.2.idb ∧
    (applyOp env p op).2.cacheNames ⊆ p.2.cacheNames := by
  cases op with
  | add m now =>
    simp [applyOp, addMessage, List.Subset.refl]
  | clear =>
    simp [applyOp, clearMessages, List.Subset.refl]
  | clearAll =>
    exact clearAllHistory_storage_sub env p

/-- Sequences of store operations only shrink the durable storage. -/
theorem runOps_storage_sub (env : BrowserEnv) (ops : List StoreOp) (p : StorePair) :
    (runOps env ops p).2.localEntries ⊆ p.2.localEntries ∧
    (runOps env ops p).2.sessionEntries ⊆ p.2.sessionEntries ∧
    (runOps env ops p).2.idb ⊆ p.2.idb ∧
    (runOps env ops p).2.cacheNames ⊆ p.2.cacheNames := by
  induction ops generalizing p with
  | nil =>
    simp [runOps, List.Subset.refl]
  | cons op ops ih =>
    have h1 := applyOp_storage_sub env p op
    have h2 := ih (applyOp env p op)
    have hrun : runOps env (op :: ops) p = runOps env ops (applyOp env p op) := rfl
    rw [hrun]
    exact ⟨h2.1.trans h1.1, h2.2.1.trans h1.2.1,
           h2.2.2.1.trans h1.2.2.1, h2.2.2.2.trans h1.2.2.2⟩

/-- C2: in the shipped configuration no operation of the chat state
container ever writes chat content (or anything else) to durable browser
storage: enableStorage leaves the persistence toggle false, and for every
sequence of addMessage, clearMessages and clearAllHistory calls, every
key-value pair and every database or cache name present afterwards was
already present before, so message content lives only in the in-memory
message list. -/
theorem chat_store_never_persists (σ : ChatState) (st : StorageState)
    (env : BrowserEnv) (ops : List StoreOp) (kv : String × String) (n : String) :
    ((enableStorage (σ, st)).1.storageEnabled = false) ∧
    (kv ∈ storagePairs (runOps env ops (σ, st)).2 → kv ∈ storagePairs st) ∧
    (n ∈ storageNames (runOps env ops (σ, st)).2 → n ∈ storageNames st) := by
  have hsub := runOps_storage_sub env ops (σ, st)
  refine ⟨rfl, ?_, ?_⟩
  · intro h
    simp only [storagePairs, List.mem_append] at h ⊢
    rcases h with h | h
    · exact Or.inl (hsub.1 h)
    · exact Or.inr (hsub.2.1 h)
  · intro h
    simp only [storageNames, List.mem_append] at h ⊢
    rcases h with h | h
    · exact Or.inl (hsub.2.2.1 h)
    · exact Or.inr (hsub.2.2.2 h)

/-- Concrete store state for witnesses: nothing selected, defaults as in
the store initializer. -/
def chatState0 : ChatState :=
  ⟨[], none, false, 0, "", true, false, "", false, 0, false⟩

/-- Concrete durable storage holding one key-value pair and one database. -/
def storage0 : StorageState := ⟨[("k", "v")], [], ["webllm"], []⟩

/-- Concrete fully-available browser environment. -/
def env0 : BrowserEnv := ⟨true, true, true, true, true, true⟩

/-- Witness for C2: one addMessage call on a store whose storage holds one
pair and one database name. -/
theorem chat_store_never_persists_witness :
    ((enableStorage (chatState0, storage0)).1.storageEnabled = false) ∧
    (("k", "v") ∈ storagePairs storage0) ∧ ("webllm" ∈ storageNames storage0) := by
  have h := chat_store_never_persists chatState0 storage0 env0
    [.add ⟨"user", "hi", 0⟩ 0] ("k", "v") "webllm"
  exact ⟨h.1, h.2.1 (by decide), h.2.2 (by decide)⟩

/-- C7: for every prior store state, clearing chat history with either
clearMessages or clearAllHistory leaves the message list empty, the
context token count at 0 and the context-warning flag false. -/
theorem clear_resets_context (p : StorePair) (env : BrowserEnv) :
    (clearMessages p).1.messages = [] ∧
    (clearMessages p).1.contextTokenCount = 0 ∧
    (clearMessages p).1.showContextWarning = false ∧
    (clearAllHistory env p).1.messages = [] ∧
    (clearAllHistory env p).1.contextTokenCount = 0 ∧
    (clearAllHistory env p).1.showContextWarning = false :=
  ⟨rfl, rfl, rfl, rfl, rfl, rfl⟩

/-- C9: the storage-scrub operations of the security manager never throw
to their caller: for every browser environment (storage quotas, private
browsing, missing APIs, rejected promises) both secureMemoryWipe and
clearUserDataFromIndexedDB return normally. -/
theorem storage_scrub_never_throws (env : BrowserEnv) (st : StorageState) :
    (∃ st1, secureMemoryWipe env st = .ok st1) ∧
    (∃ st2, clearUserDataFromIndexedDB env st = .ok st2) := by
  constructor
  · exact ⟨_, rfl⟩
  · unfold clearUserDataFromIndexedDB
    cases env.idbHasDatabasesApi <;> cases env.idbListOk <;> simp

/-! ## Helper lemmas: sanitizer character tracking -/

/-- Members of a takeWhile are members of the list. -/
theorem mem_of_mem_takeWhileCh (p : Char → Bool) (l : List Char) (c : Char)
    (h : c ∈ l.takeWhile p) : c ∈ l := by
  induction l with
  | nil => simp [List.takeWhile] at h
  | cons a t ih =>
    by_cases hp : p a
    · simp only [List.takeWhile_cons, hp, if_true, List.mem_cons] at h
      rcases h with h | h
      · exact h ▸ List.mem_cons_self a t
      · exact List.mem_cons_of_mem a (ih h)
    · simp [List.takeWhile_cons, hp] at h

/-- Members of a dropWhile are members of the list. -/
theorem mem_of_mem_dropWhileCh (p : Char → Bool) (l : List Char) (c : Char)
    (h : c ∈ l.dropWhile p) : c ∈ l := by
  induction l with
  | nil => simp [List.dropWhile] at h
  | cons a t ih =>
    by_cases hp : p a
    · simp only [List.dropWhile_cons, hp, if_true] at h
      exact List.mem_cons_of_mem a (ih h)
    · simpa [List.dropWhile_cons, hp] using h

/-- Every character the collapse emits is a run character, a later input
character, or the substituted space. -/
theorem mem_collapseWs10Aux (rest : List Char) (run : List Char) (c : Char)
    (h : c ∈ collapseWs10Aux run rest) : c ∈ run ∨ c ∈ rest ∨ c = ' ' := by
  induction rest generalizing run with
  | nil =>
    simp only [collapseWs10Aux] at h
    split at h
    · simp only [List.mem_singleton] at h
      exact Or.inr (Or.inr h)
    · rw [List.mem_reverse] at h
      exact Or.inl h
  | cons a t ih =>
    simp only [collapseWs10Aux] at h
    split at h
    · rcases ih (a :: run) h with h2 | h2 | h2
      · rcases List.mem_cons.mp h2 with h3 | h3
        · exact Or.inr (Or.inl (h3 ▸ List.mem_cons_self a t))
        · exact Or.inl h3
      · exact Or.inr (Or.inl (List.mem_cons_of_mem a h2))
      · exact Or.inr (Or.inr h2)
    · rcases List.mem_append.mp h with h2 | h2
      · split at h2
        · simp only [List.mem_singleton] at h2
          exact Or.inr (Or.inr h2)
        · rw [List.mem_reverse] at h2
          exact Or.inl h2
      · rcases List.mem_cons.mp h2 with h3 | h3
        · exact Or.inr (Or.inl (h3 ▸ List.mem_cons_self a t))
        · rcases ih [] h3 with h4 | h4 | h4
          · simp at h4
          · exact Or.inr (Or.inl (List.mem_cons_of_mem a h4))
          · exact Or.inr (Or.inr h4)

/-- Every character of the whitespace collapse is a character of the input
or the space it substitutes for a long run. -/
theorem mem_collapseWs10 (l : List Char) (c : Char) (h : c ∈ collapseWs10 l) :
    c ∈ l ∨ c = ' ' := by
  rcases mem_collapseWs10Aux l [] c h with h2 | h2 | h2
  · simp at h2
  · exact Or.inl h2
  · exact Or.inr h2

/-- Members of the trim are members of the input. -/
theorem mem_jsTrim (l : List Char) (c : Char) (h : c ∈ jsTrim l) : c ∈ l := by
  unfold jsTrim at h
  rw [List.mem_reverse] at h
  have h2 := mem_of_mem_dropWhileCh _ _ _ h
  rw [List.mem_reverse] at h2
  exact mem_of_mem_dropWhileCh _ _ _ h2

/-- The length guard of sanitizeInput throws on over-long input. -/
theorem sanitizeInput_too_long (purify : String → String) (s : String)
    (h : s.length > 10000) : sanitizeInput purify s = .error "Input too long" := by
  unfold sanitizeInput
  rw [if_pos h]

/-- On input within the length bound, sanitizeInput returns normally and
its result contains no control character. -/
theorem sanitizeInput_ok_no_control (purify : String → String) (input : String)
    (h : input.length ≤ 10000) :
    ∃ out, sanitizeInput purify input = .ok out ∧
      out.toList.all (fun c => !isControlChar c) = true := by
  have hout : sanitizeInput purify input =
      .ok (String.mk (jsTrim (collapseWs10 (removeControlChars (purify input)).toList))) := by
    unfold sanitizeInput
    rw [if_neg (by omega)]
  refine ⟨_, hout, ?_⟩
  · rw [List.all_eq_true]
    intro c hc
    have h1 : c ∈ collapseWs10 (removeControlChars (purify input)).toList :=
      mem_jsTrim _ _ hc
    rcases mem_collapseWs10 _ _ h1 with h2 | h2
    · have h3 : c ∈ (purify input).toList.filter (fun x => !isControlChar x) := h2
      exact (List.mem_filter.mp h3).2
    · subst h2
      decide

/-! ## Remaining claim theorems -/

/-- C10: sanitizeInput throws for every input longer than 10000
characters; for every input of length at most 10000 it returns normally
with a string containing no control character; and the send path runs
sanitizeInput on the raw content before the 4000-character truncation, so
an over-long message makes handleSendMessage throw rather than
truncate. -/
theorem sanitize_guard_and_no_control (purify : String → String)
    (input content : String) (modelLoaded : Bool) (now : Nat) (p : StorePair) :
    (input.length > 10000 → sanitizeInput purify input = .error "Input too long") ∧
    (input.length ≤ 10000 → ∃ out, sanitizeInput purify input = .ok out ∧
      out.toList.all (fun c => !isControlChar c) = true) ∧
    (content.length > 10000 → p.1.selectedModel.isSome = true → modelLoaded = true →
      handleSendMessage purify modelLoaded now p content = .error "Input too long") := by
  refine ⟨sanitizeInput_too_long purify input,
    sanitizeInput_ok_no_control purify input, ?_⟩
  intro hlong hsome hml
  unfold handleSendMessage
  have hguard : (p.1.selectedModel.isNone || !modelLoaded) = false := by
    cases hm : p.1.selectedModel <;> simp_all
  rw [hguard]
  simp only [Bool.false_eq_true, if_false]
  rw [sanitizeInput_too_long purify content hlong]

/-- A model descriptor used by witnesses. -/
def model0 : ModelConfig :=
  ⟨"Llama-3.2-1B-Instruct-q4f16_1-MLC", "Llama 3.2 1B", "880MB", "small"⟩

/-- Store state with a selected model, used by witnesses. -/
def chatStateSel : ChatState :=
  { chatState0 with selectedModel := some model0 }

/-- A 10001-character input. -/
def longInput : String := String.mk (List.replicate 10001 'a')

/-- The long witness input is exactly 10001 characters. -/
theorem longInput_length : longInput.length = 10001 := by
  show (String.mk (List.replicate 10001 'a')).length = 10001
  rw [show (String.mk (List.replicate 10001 'a')).length =
      (List.replicate 10001 'a').length from rfl]
  exact List.length_replicate 10001 'a'

/-- Witness for C10: the guard fires on a 10001-character input, a short
input passes with a control-free result, and the loaded-model send path
rejects the over-long input. -/
theorem sanitize_guard_and_no_control_witness :
    sanitizeInput id longInput = .error "Input too long" ∧
    (∃ out, sanitizeInput id "ab" = .ok out ∧
      out.toList.all (fun c => !isControlChar c) = true) ∧
    handleSendMessage id true 0 (chatStateSel, storage0) longInput =
      .error "Input too long" := by
  have h1 := sanitize_guard_and_no_control id longInput longInput true 0
    (chatStateSel, storage0)
  have h2 := sanitize_guard_and_no_control id "ab" "ab" true 0
    (chatStateSel, storage0)
  refine ⟨h1.1 ?_, h2.2.1 ?_, h1.2.2 ?_ rfl rfl⟩
  · rw [longInput_length]; omega
  · decide
  · rw [longInput_length]; omega

/-- C8: for every input string, sending a message while no model is
selected or no model is loaded is a no-op: the store pair (messages and
all other state, including durable storage) is returned unchanged and no
generation is started. -/
theorem send_without_model_noop (purify : String → String) (modelLoaded : Bool)
    (now : Nat) (p : StorePair) (content : String)
    (h : p.1.selectedModel = none ∨ modelLoaded = false) :
    handleSendMessage purify modelLoaded now p content = .ok (p, false) := by
  unfold handleSendMessage
  rcases h with h | h <;> simp [h]

/-- Witness for C8: sending hello with no selected model and no loaded
model changes nothing. -/
theorem send_without_model_noop_witness :
    handleSendMessage id false 0 (chatState0, storage0) "hello" =
      .ok ((chatState0, storage0), false) :=
  send_without_model_noop id false 0 (chatState0, storage0) "hello" (Or.inl rfl)

/-- C5: for every call to initializeModel with model B while a different
model A is loaded (engine live, not mid-load), the trace is exactly:
unload the previous engine, create the new engine, reload it with B, so
the previous engine is unloaded before the engine for B is created; every
prefix of the trace keeps at most one engine live; and on success the new
engine and model are the only ones recorded. -/
theorem initializeModel_unloads_previous (st : ServiceState) (A B : String)
    (e n : Nat) (reloadOk : Bool) (h1 : st.isLoading = false)
    (h2 : st.engine = some e) (h3 : st.currentModel = some A) (h4 : A ≠ B) :
    (initializeModel st B n reloadOk).2 = [.unload e, .create n, .reload n B] ∧
    (∀ k, enginesLive 1 (((initializeModel st B n reloadOk).2).take k) ≤ 1) ∧
    (reloadOk = true → ∃ st1, (initializeModel st B n reloadOk).1 = .ok st1 ∧
      st1.engine = some n ∧ st1.currentModel = some B) := by
  obtain ⟨eng, cm, il, lp, lstat⟩ := st
  have he : eng = some e := h2
  have hc : cm = some A := h3
  have hi : il = false := h1
  subst he hc hi
  have hne : ((some A : Option String) != some B) = true := by
    simp [bne_iff_ne, h4]
  have hT : (initializeModel ⟨some e, some A, false, lp, lstat⟩ B n reloadOk).2 =
      [.unload e, .create n, .reload n B] := by
    cases reloadOk <;> simp [initializeModel, cleanup, hne]
  refine ⟨hT, ?_, ?_⟩
  · intro k
    rw [hT]
    match k with
    | 0 => simp [enginesLive]
    | 1 => simp [enginesLive]
    | 2 => simp [enginesLive]
    | (m + 3) =>
      rw [List.take_of_length_le (by simp)]
      simp [enginesLive]
  · intro hr
    subst hr
    refine ⟨⟨some n, some B, false, 100, "Model loaded successfully"⟩, ?_, rfl, rfl⟩
    simp [initializeModel, cleanup, hne]

/-- Concrete loaded service state for the C5 witness. -/
def svc0 : ServiceState := ⟨some 0, some "modelA", false, 100, "Model loaded successfully"⟩

/-- Witness for C5: switching from modelA to modelB on a loaded service. -/
theorem initializeModel_unloads_previous_witness :
    (initializeModel svc0 "modelB" 1 true).2 =
      [.unload 0, .create 1, .reload 1 "modelB"] ∧
    (∀ k, enginesLive 1 (((initializeModel svc0 "modelB" 1 true).2).take k) ≤ 1) ∧
    (true = true → ∃ st1, (initializeModel svc0 "modelB" 1 true).1 = .ok st1 ∧
      st1.engine = some 1 ∧ st1.currentModel = some "modelB") :=
  initializeModel_unloads_previous svc0 "modelA" "modelB" 0 1 true rfl rfl rfl
    (by decide)

/-- The UI cancels generation between the first and the second chunk. -/
def cancelAfterFirstChunk : Nat → Bool := fun i => i == 1

/-- C6 (divergence witness): cancelling after the first streamed chunk
with one more chunk arriving emits no further token (only Hel was
delivered), but the loop does not end quietly: reading
abortController.signal after cancelGeneration nulled the field raises the
null TypeError, generateResponse rethrows it as a generic failure, and the
component error handler appends a fresh assistant error message, so the
partial text Hel ends up in the second-to-last message, not the last. -/
theorem cancel_midstream_null_typeerror :
    streamLoop cancelAfterFirstChunk [some "Hel", some "lo"] 0 (some false) "" =
      (.nullSignalError, ["Hel"]) ∧
    generateAndUpdate cancelAfterFirstChunk [some "Hel", some "lo"] 7
        [⟨"user", "hi", 7⟩, ⟨"assistant", "", 7⟩] =
      (.nullSignalError,
       [⟨"user", "hi", 7⟩, ⟨"assistant", "Hel", 7⟩,
        ⟨"assistant", "Error: " ++ genFailureText, 7⟩]) := by
  exact ⟨rfl, rfl⟩

end OblivAI
